import Mathlib

/- Shallow embedding of src/script.js: a charged-particle beamline visualizer.
   The physics, trail buffer, camera follow, clock and slider wiring are
   translated into Lean over the real numbers; THREE.js rendering calls are
   external collaborators and carry no state of their own. -/

/-- A 3D position, as used for THREE.Vector3 values in the script. -/
abbrev V3 : Type := ℝ × ℝ × ℝ

/-- Componentwise vector addition, as THREE.Vector3.add. -/
noncomputable def addVec (a b : V3) : V3 :=
  (a.1 + b.1, a.2.1 + b.2.1, a.2.2 + b.2.2)

/-- The simulation parameter record from script.js lines 39-51 (the reset
    closure is modelled separately as an operation on the whole state). -/
structure Params where
  mass : ℝ
  charge : ℝ
  B : ℝ
  v_perp : ℝ
  v_parallel : ℝ
  speed : ℝ
  followCamera : Bool

/-- Angular cyclotron frequency, script.js line 63:
    omega = Math.abs(params.charge * params.B / params.mass). -/
noncomputable def omega (p : Params) : ℝ := |p.charge * p.B / p.mass|

/-- Gyroradius, script.js line 67: r = params.v_perp / omega. -/
noncomputable def gyroradius (p : Params) : ℝ := p.v_perp / omega p

/-- The particle position computed by updateParticle (script.js lines 62-73)
    as a function of the parameters and the simulation time t. -/
noncomputable def particlePosition (p : Params) (t : ℝ) : V3 :=
  if omega p = 0 ∨ p.v_perp = 0 then
    (p.v_perp * t, 0, p.v_parallel * t)
  else
    (gyroradius p * Real.sin (omega p * t),
     -gyroradius p * (1 - Real.cos (omega p * t)),
     p.v_parallel * t)

/-- script.js line 27: const maxTrailPoints = 1000. -/
def maxTrailPoints : ℕ := 1000

/-- One trail append, script.js lines 74-75: push the new position at the
    end, then shift out the oldest entry when the length exceeds the cap. -/
def appendTrail {α : Type} (buf : List α) (pos : α) : List α :=
  if (buf ++ [pos]).length > maxTrailPoints then (buf ++ [pos]).tail
  else buf ++ [pos]

/-- The mutable simulation state of the script: the parameter record, the
    simulation time t (line 53) and the trailPositions array (line 28). -/
structure SimState where
  params : Params
  t : ℝ
  trailPositions : List V3

/-- params.reset, script.js lines 47-50: t = 0 and trailPositions emptied. -/
def reset (s : SimState) : SimState := { s with t := 0, trailPositions := [] }

/-- The body of updateParticle (script.js lines 62-77): compute the new
    particle position and append it to the trail. -/
noncomputable def updateParticle (p : Params) (t : ℝ) (trail : List V3) :
    V3 × List V3 :=
  (particlePosition p t, appendTrail trail (particlePosition p t))

/-- The time step of animate, script.js lines 82-83:
    t += params.speed * delta. -/
noncomputable def advanceTime (t speed delta : ℝ) : ℝ := t + speed * delta

/-- THREE.Math.degToRad: degrees to radians. -/
noncomputable def degToRad (d : ℝ) : ℝ := d * (Real.pi / 180)

/-- script.js line 59: the constant camera offset for follow mode,
    (-10, 10 * tan(20 degrees), 0). -/
noncomputable def fixedCameraOffset : V3 :=
  (-10, 10 * Real.tan (degToRad 20), 0)

/-- Camera state: its position and the look-at target kept by the controls. -/
structure CameraState where
  position : V3
  target : V3

/-- The follow-mode block of animate, script.js lines 87-95: when follow
    mode is on, the camera moves to the particle plus the fixed offset and
    both the look-at and the controls target become the particle position;
    otherwise the camera is left to the orbit controls. -/
noncomputable def followCameraUpdate (followCamera : Bool) (particlePos : V3)
    (cam : CameraState) : CameraState :=
  if followCamera then
    { position := addVec particlePos fixedCameraOffset, target := particlePos }
  else cam

/-- The six slider identities bound in script.js lines 119-124. -/
inductive ParamName where
  | mass
  | charge
  | B
  | v_perp
  | v_parallel
  | speed
  deriving DecidableEq

/-- Writing one named parameter, the params[paramName] = value assignment of
    bindSlider (script.js line 109). -/
def setParam (p : Params) (n : ParamName) (v : ℝ) : Params :=
  match n with
  | ParamName.mass => { p with mass := v }
  | ParamName.charge => { p with charge := v }
  | ParamName.B => { p with B := v }
  | ParamName.v_perp => { p with v_perp := v }
  | ParamName.v_parallel => { p with v_parallel := v }
  | ParamName.speed => { p with speed := v }

/-- The input listener installed by bindSlider (script.js lines 104-116):
    store the new value, and when the resetOnChange flag is set also zero the
    time and clear the trail. -/
def bindSlider (n : ParamName) (resetOnChange : Bool) (s : SimState)
    (v : ℝ) : SimState :=
  let s1 : SimState := { s with params := setParam s.params n v }
  if resetOnChange then { s1 with t := 0, trailPositions := [] } else s1

/-- The per-slider reset flags of the six bindSlider calls
    (script.js lines 119-124): true for the five physics sliders, false for
    the speed slider. -/
def sliderResetFlag : ParamName → Bool
  | ParamName.speed => false
  | _ => true

/-- A change event on one slider, with the flag the script binds for it. -/
def sliderInput (n : ParamName) (v : ℝ) (s : SimState) : SimState :=
  bindSlider n (sliderResetFlag n) s v

/- Concrete parameter records used in witnesses and counterexamples. -/

/-- The concrete scenario of the spec: unit mass, charge, field and
    perpendicular velocity, no parallel velocity. -/
def pUnit : Params := ⟨1, 1, 1, 1, 0, 1, false⟩

/-- A record with negative perpendicular velocity. -/
def pNeg : Params := ⟨1, 1, 1, -1, 0, 1, false⟩

/-- A record with zero charge. -/
def pZeroCharge : Params := ⟨1, 0, 1, 1, 1, 1, false⟩

/-- A record with zero perpendicular velocity. -/
def pZeroPerp : Params := ⟨2, 3, 4, 0, 5, 1, false⟩

/- Branch lemmas for particlePosition. -/

lemma particlePosition_general (p : Params) (t : ℝ) (hω : omega p ≠ 0)
    (hv : p.v_perp ≠ 0) :
    particlePosition p t =
      (gyroradius p * Real.sin (omega p * t),
       -gyroradius p * (1 - Real.cos (omega p * t)),
       p.v_parallel * t) := by
  unfold particlePosition
  rw [if_neg (not_or.mpr ⟨hω, hv⟩)]

lemma particlePosition_degenerate (p : Params) (t : ℝ)
    (h : omega p = 0 ∨ p.v_perp = 0) :
    particlePosition p t = (p.v_perp * t, 0, p.v_parallel * t) := by
  unfold particlePosition
  rw [if_pos h]

lemma omega_pUnit : omega pUnit = 1 := by
  norm_num [omega, pUnit]

lemma gyroradius_pUnit : gyroradius pUnit = 1 := by
  rw [gyroradius, omega_pUnit]
  norm_num [pUnit]

lemma omega_pNeg : omega pNeg = 1 := by
  norm_num [omega, pNeg]

lemma gyroradius_pNeg : gyroradius pNeg = -1 := by
  rw [gyroradius, omega_pNeg]
  norm_num [pNeg]

lemma appendTrail_foldl {α : Type} (items : List α) :
    ∀ buf : List α, buf.length ≤ maxTrailPoints →
      List.foldl appendTrail buf items =
        (buf ++ items).drop (buf.length + items.length - maxTrailPoints) := by
  induction items with
  | nil =>
    intro buf hb
    simp [Nat.sub_eq_zero_of_le hb]
  | cons x xs ih =>
    intro buf hb
    rw [List.foldl_cons]
    by_cases hlen : (buf ++ [x]).length > maxTrailPoints
    · have hbeq : buf.length = maxTrailPoints := by
        simp at hlen
        omega
      cases buf with
      | nil => simp [maxTrailPoints] at hbeq
      | cons b bs =>
        have htail : appendTrail (b :: bs) x = bs ++ [x] := by
          unfold appendTrail
          rw [if_pos hlen]
          simp
        rw [htail]
        have hbs : (bs ++ [x]).length ≤ maxTrailPoints := by
          simp at hbeq ⊢
          omega
        rw [ih (bs ++ [x]) hbs]
        have harith : (bs ++ [x]).length + xs.length - maxTrailPoints
            = xs.length := by
          simp at hbeq ⊢
          omega
        have harith2 : (b :: bs).length + (x :: xs).length - maxTrailPoints
            = xs.length + 1 := by
          simp at hbeq ⊢
          omega
        rw [harith, harith2]
        simp [List.append_assoc]
    · have happ : appendTrail buf x = buf ++ [x] := by
        unfold appendTrail
        rw [if_neg hlen]
      rw [happ]
      simp at hlen
      rw [ih (buf ++ [x]) (by simpa using hlen)]
      have harith : (buf ++ [x]).length + xs.length
          = buf.length + (x :: xs).length := by
        simp
        omega
      rw [List.append_assoc, harith]
      simp

/-- C1: in the general case (omega nonzero and perpendicular velocity
    nonzero) the computed position is
    (r * sin(omega*t), -r * (1 - cos(omega*t)), v_parallel * t) with
    r = v_perp / omega, for every time t. -/
theorem general_case_position (p : Params) (t : ℝ) (hω : omega p ≠ 0)
    (hv : p.v_perp ≠ 0) :
    particlePosition p t =
      (gyroradius p * Real.sin (omega p * t),
       -gyroradius p * (1 - Real.cos (omega p * t)),
       p.v_parallel * t) :=
  particlePosition_general p t hω hv

/-- C1 witness: the concrete scenario mass=1, charge=1, B=1, v_perp=1,
    v_parallel=0 at t = pi yields the position (0, -2, 0). -/
theorem general_case_position_witness :
    omega pUnit ≠ 0 ∧ pUnit.v_perp ≠ 0 ∧
      particlePosition pUnit Real.pi = (0, -2, 0) := by
  have hω : omega pUnit ≠ 0 := by
    rw [omega_pUnit]
    norm_num
  have hv : pUnit.v_perp ≠ 0 := by
    norm_num [pUnit]
  refine ⟨hω, hv, ?_⟩
  rw [general_case_position pUnit Real.pi hω hv, omega_pUnit, gyroradius_pUnit]
  norm_num [Real.sin_pi, Real.cos_pi, pUnit]

/-- C2: zero charge or zero field strength makes omega zero, and whenever
    omega or the perpendicular velocity is zero the computed position is the
    pure linear drift (v_perp * t, 0, v_parallel * t) for every time t. -/
theorem degenerate_case_position (p : Params) (t : ℝ) :
    (p.charge = 0 ∨ p.B = 0 → omega p = 0) ∧
    (omega p = 0 ∨ p.v_perp = 0 →
      particlePosition p t = (p.v_perp * t, 0, p.v_parallel * t)) := by
  constructor
  · rintro (h | h) <;> simp [omega, h]
  · exact particlePosition_degenerate p t

/-- C2 witness: with zero charge, omega is zero and at t = 2 the position is
    the linear drift point (2, 0, 2). -/
theorem degenerate_case_position_witness :
    pZeroCharge.charge = 0 ∧ omega pZeroCharge = 0 ∧
      particlePosition pZeroCharge 2 = (2, 0, 2) := by
  have h := degenerate_case_position pZeroCharge 2
  have hc : pZeroCharge.charge = 0 := rfl
  have hω : omega pZeroCharge = 0 := h.1 (Or.inl hc)
  refine ⟨hc, hω, ?_⟩
  rw [h.2 (Or.inl hω)]
  norm_num [pZeroCharge]

/-- C3: an append never grows a bounded trail past maxTrailPoints, and
    folding 1500 appends into the empty trail leaves exactly the last 1000
    appended points, in insertion order. -/
theorem trail_buffer_bound {α : Type} :
    (∀ (buf : List α) (x : α), buf.length ≤ maxTrailPoints →
      (appendTrail buf x).length ≤ maxTrailPoints) ∧
    (∀ items : List α, items.length = 1500 →
      (List.foldl appendTrail ([] : List α) items).length = 1000 ∧
      List.foldl appendTrail ([] : List α) items = items.drop 500) := by
  constructor
  · intro buf x hb
    unfold appendTrail
    by_cases hlen : (buf ++ [x]).length > maxTrailPoints
    · rw [if_pos hlen]
      simp at hlen ⊢
      omega
    · rw [if_neg hlen]
      simp at hlen ⊢
      omega
  · intro items hlen
    have key := appendTrail_foldl items ([] : List α)
      (by simp [maxTrailPoints])
    simp [hlen, maxTrailPoints] at key
    rw [key]
    constructor
    · rw [List.length_drop, hlen]
    · rfl

/-- C3 witness: appending a point to a trail of 1000 keeps the bound, and
    folding the 1500 numbers 0..1499 into an empty trail yields exactly the
    numbers 500..1499 in order. -/
theorem trail_buffer_bound_witness :
    (appendTrail (List.range 1000) 7).length ≤ maxTrailPoints ∧
    ((List.range 1500).foldl appendTrail ([] : List ℕ)).length = 1000 ∧
    (List.range 1500).foldl appendTrail ([] : List ℕ)
      = (List.range 1500).drop 500 := by
  refine ⟨trail_buffer_bound.1 (List.range 1000) 7 ?_,
    trail_buffer_bound.2 (List.range 1500) ?_⟩
  · simp [maxTrailPoints]
  · simp

/-- C4 counterexample: with mass=1, charge=1, B=1, v_perp=-1 the general
    branch is reached, yet at t = 0 the claimed identity
    sqrt(x^2 + (y+r)^2) = r fails, because r = -1 while the square root is 1. -/
theorem gyroradius_identity_counterexample :
    omega pNeg ≠ 0 ∧ pNeg.v_perp ≠ 0 ∧
    ¬ (Real.sqrt ((particlePosition pNeg 0).1 ^ 2 +
        ((particlePosition pNeg 0).2.1 + gyroradius pNeg) ^ 2)
          = gyroradius pNeg) := by
  have hω : omega pNeg ≠ 0 := by
    rw [omega_pNeg]
    norm_num
  have hv : pNeg.v_perp ≠ 0 := by
    norm_num [pNeg]
  have hpos : particlePosition pNeg 0 = (0, 0, 0) := by
    rw [particlePosition_general pNeg 0 hω hv, omega_pNeg, gyroradius_pNeg]
    norm_num
  refine ⟨hω, hv, ?_⟩
  rw [hpos, gyroradius_pNeg]
  intro hcontra
  simp at hcontra
  norm_num at hcontra

/-- C4 amended: in the general case the computed position lies on the circle
    of radius the absolute gyroradius centered at (0, -r) in the x-y plane:
    sqrt(x^2 + (y+r)^2) = abs r, for all t and all parameters that reach the
    general branch, including negative perpendicular velocity. -/
theorem gyroradius_circle (p : Params) (t : ℝ) (hω : omega p ≠ 0)
    (hv : p.v_perp ≠ 0) :
    Real.sqrt ((particlePosition p t).1 ^ 2 +
        ((particlePosition p t).2.1 + gyroradius p) ^ 2)
      = |gyroradius p| := by
  rw [particlePosition_general p t hω hv]
  have hkey : (gyroradius p * Real.sin (omega p * t)) ^ 2 +
      (-gyroradius p * (1 - Real.cos (omega p * t)) + gyroradius p) ^ 2
        = gyroradius p ^ 2 := by
    have hpy := Real.sin_sq_add_cos_sq (omega p * t)
    ring_nf
    nlinarith [hpy]
  simp only [Prod.fst, Prod.snd] at hkey ⊢
  rw [hkey]
  exact Real.sqrt_sq_eq_abs (gyroradius p)

/-- C4 amended witness: at the negative perpendicular velocity record and
    t = 0 the square root evaluates to the absolute gyroradius. -/
theorem gyroradius_circle_witness :
    omega pNeg ≠ 0 ∧ pNeg.v_perp ≠ 0 ∧
    Real.sqrt ((particlePosition pNeg 0).1 ^ 2 +
        ((particlePosition pNeg 0).2.1 + gyroradius pNeg) ^ 2)
      = |gyroradius pNeg| := by
  have hω : omega pNeg ≠ 0 := by
    rw [omega_pNeg]
    norm_num
  have hv : pNeg.v_perp ≠ 0 := by
    norm_num [pNeg]
  exact ⟨hω, hv, gyroradius_circle pNeg 0 hω hv⟩

/-- C5: with follow mode on, the camera lands at the particle position plus
    the offset (-10, 10*tan(20 degrees), 0) and the look-at target is the
    particle position; at particle position (5,0,0) the camera lands at
    (-5, 10*tan(20 degrees), 0) with target (5,0,0). -/
theorem follow_camera_frame (pos : V3) (cam : CameraState) :
    (followCameraUpdate true pos cam).position
        = (pos.1 - 10, pos.2.1 + 10 * Real.tan (degToRad 20), pos.2.2) ∧
    (followCameraUpdate true pos cam).target = pos ∧
    (followCameraUpdate true ((5:ℝ), (0:ℝ), (0:ℝ)) cam).position
        = (-5, 10 * Real.tan (degToRad 20), 0) ∧
    (followCameraUpdate true ((5:ℝ), (0:ℝ), (0:ℝ)) cam).target
        = ((5:ℝ), (0:ℝ), (0:ℝ)) := by
  refine ⟨?_, ?_, ?_, ?_⟩ <;>
    simp [followCameraUpdate, addVec, fixedCameraOffset, Prod.ext_iff] <;>
    ring_nf

/-- C6: after reset the simulation time is 0 and the trail is empty,
    regardless of the prior state. -/
theorem reset_state (s : SimState) :
    (reset s).t = 0 ∧ (reset s).trailPositions = [] :=
  ⟨rfl, rfl⟩

/-- C7: in both branches the z component of the computed position is exactly
    v_parallel * t, for every time and every parameter record. -/
theorem z_component_decoupled (p : Params) (t : ℝ) :
    (particlePosition p t).2.2 = p.v_parallel * t := by
  by_cases h : omega p = 0 ∨ p.v_perp = 0
  · rw [particlePosition_degenerate p t h]
  · rw [particlePosition_general p t (fun hω => h (Or.inl hω))
      (fun hv => h (Or.inr hv))]

/-- C8: with zero perpendicular velocity the computed position has x = 0 and
    y = 0 for every time, regardless of mass, charge and field strength. -/
theorem perp_zero_axial (p : Params) (t : ℝ) (h : p.v_perp = 0) :
    (particlePosition p t).1 = 0 ∧ (particlePosition p t).2.1 = 0 := by
  rw [particlePosition_degenerate p t (Or.inr h)]
  simp [h]

/-- C8 witness: the zero perpendicular velocity record at t = 7 has x = 0 and
    y = 0. -/
theorem perp_zero_axial_witness :
    pZeroPerp.v_perp = 0 ∧ (particlePosition pZeroPerp 7).1 = 0 ∧
      (particlePosition pZeroPerp 7).2.1 = 0 :=
  ⟨rfl, (perp_zero_axial pZeroPerp 7 rfl).1, (perp_zero_axial pZeroPerp 7 rfl).2⟩

/-- C9 counterexample: the claim that every tick with nonnegative delta
    leaves the time no smaller fails for timeScale -1: at t = 0 with delta
    1 the new time is -1, strictly below the old time. -/
theorem time_monotone_counterexample :
    (0:ℝ) ≤ 1 ∧ advanceTime 0 (-1) 1 < 0 := by
  constructor
  · norm_num
  · norm_num [advanceTime]

/-- C9 amended: each tick advances the time by exactly timeScale * delta,
    and the time never decreases whenever timeScale is nonnegative and the
    frame delta is nonnegative. -/
theorem time_advance (t speed delta : ℝ) :
    advanceTime t speed delta = t + speed * delta ∧
    (0 ≤ speed → 0 ≤ delta → t ≤ advanceTime t speed delta) := by
  refine ⟨rfl, fun hs hd => ?_⟩
  unfold advanceTime
  nlinarith [mul_nonneg hs hd]

/-- C9 amended witness: at t = 2 with timeScale 3 and delta 4 the new time
    is 2 + 3 * 4 and is no smaller than 2. -/
theorem time_advance_witness :
    advanceTime 2 3 4 = 2 + 3 * 4 ∧ (2:ℝ) ≤ advanceTime 2 3 4 :=
  ⟨(time_advance 2 3 4).1, (time_advance 2 3 4).2 (by norm_num) (by norm_num)⟩

/-- C10: a change event on any slider other than speed stores the new value,
    zeroes the simulation time and clears the trail, while a change event on
    the speed slider stores the new value and leaves the time and the trail
    untouched. -/
theorem slider_reset_policy (s : SimState) (v : ℝ) :
    (∀ n : ParamName, n ≠ ParamName.speed →
        (sliderInput n v s).t = 0 ∧
        (sliderInput n v s).trailPositions = [] ∧
        (sliderInput n v s).params = setParam s.params n v) ∧
    ((sliderInput ParamName.speed v s).t = s.t ∧
      (sliderInput ParamName.speed v s).trailPositions = s.trailPositions ∧
      (sliderInput ParamName.speed v s).params
        = setParam s.params ParamName.speed v) := by
  constructor
  · intro n hn
    cases n <;>
      simp_all [sliderInput, bindSlider, sliderResetFlag]
  · simp [sliderInput, bindSlider, sliderResetFlag]

/-- A concrete simulation state for the slider policy witness. -/
def s0 : SimState := ⟨pUnit, 3, [((1:ℝ), (2:ℝ), (3:ℝ))]⟩

/-- C10 witness: on the concrete state with t = 3 and a one-point trail, a
    mass change zeroes the time and empties the trail, while a speed change
    keeps both. -/
theorem slider_reset_policy_witness :
    (sliderInput ParamName.mass 5 s0).t = 0 ∧
    (sliderInput ParamName.mass 5 s0).trailPositions = [] ∧
    (sliderInput ParamName.speed 5 s0).t = 3 ∧
    (sliderInput ParamName.speed 5 s0).trailPositions
      = [((1:ℝ), (2:ℝ), (3:ℝ))] := by
  have h := slider_reset_policy s0 5
  have hm := h.1 ParamName.mass (by decide)
  exact ⟨hm.1, hm.2.1, h.2.1, h.2.2.1⟩
